import Mathlib

/-!
Verification of the feed monitoring / deduplication / backoff / notification
engine of RSS-to-Telegram-Bot (`src/command/monitor.py`), as a shallow
embedding in Lean 4.

Modelling conventions:
* Times are natural numbers of minutes (`timedelta(minutes=k)` becomes `+ k`).
* The external collaborators (`feed_get`, `get_hash`, `get_post_from_entry` +
  `Post.generate_message`, `db.Sub.filter`, `migrate_to_new_url`, the Telegram
  delivery) are oracles packed into a `World`; the fetch result of the single
  `feed_get` call of one poll is passed explicitly as a `FetchResult`.
* `feed.entry_hashes` is stored as JSON text in the database; we model the
  decoded value directly (`none` for a Python-falsy stored value, which
  `loads(...) if ... else []` turns into `[]`).
* Python truthiness of optional strings / integers is made explicit through
  the `strTruthy` / `pyOrStr` / `pyOrNat` helpers.
* Effects on the outside world (the `feed.save()` calls, `deactivate_feed`,
  `update_interval`, `migrate_to_new_url`, message rendering, send attempts,
  every-10th-error warnings) are accumulated in an `Effects` record.
* An exception escaping a coroutine is modelled by an `err : Option String`
  component; `asyncio.gather` without `return_exceptions=True` propagates the
  first error while sibling tasks still run, so a gather is modelled as
  accumulating all effects plus the first error, and a poll whose body raises
  produces `outcome = none` together with `err = some msg`.
-/

namespace RSSTT

/-- Python truthiness of an optional string (`None` and `""` are falsy). -/
def strTruthy : Option String → Bool
  | some s => s ≠ ""
  | none => false

/-- Python `a or b` for an optional string `a` and a plain string `b`. -/
def pyOrStr (a : Option String) (b : String) : String :=
  match a with
  | some s => if s = "" then b else s
  | none => b

/-- Python `a or b` for an optional integer `a` (`None` and `0` are falsy). -/
def pyOrNat (a : Option Nat) (b : Nat) : Nat :=
  match a with
  | some n => if n = 0 then b else n
  | none => b

/-- One parsed feed entry, reduced to the fields `__monitor` reads:
`entry.get('guid')` and `entry.get('link')`. -/
structure Entry where
  guid : Option String
  link : Option String
  deriving Repr, DecidableEq

/-- The parsed feed document: `rss_d.entries`. -/
structure RssD where
  entries : List Entry
  deriving Repr, DecidableEq

/-- The dictionary returned by the external `feed_get` collaborator:
`rss_d` (`None` on failure), HTTP-ish `status` (304 = not modified),
the finally-resolved `url`, the caching headers that
`get_http_caching_headers(d['headers'])` extracts, and the error `msg`. -/
structure FetchResult where
  rss_d : Option RssD
  status : Int
  url : String
  respEtag : Option String
  respLastModified : Option Nat
  msg : String
  deriving Repr, DecidableEq

/-- The `db.Feed` record, reduced to the fields `monitor.py` touches. -/
structure Feed where
  link : String
  title : String
  etag : Option String
  last_modified : Option Nat
  updated_at : Nat
  interval : Option Nat
  error_count : Nat
  next_check_time : Option Nat
  entry_hashes : Option (List String)
  deriving Repr, DecidableEq

/-- A `db.Sub` record: subscriber id, activation state (`1` = active), the
optional per-subscription title override, and the subscriber's locale
(`sub.user.lang`). -/
structure Sub where
  user_id : Int
  state : Nat
  title : Option String
  lang : String
  deriving Repr, DecidableEq

/-- What `__send` is asked to deliver: either the rendered post of one feed
entry, or the deactivation-warning string built in
`__deactivate_feed_and_notify_all` (feed link, displayed title
`sub.title or feed.title`, and the recipient's locale picking the
`feed_deactivated_warn` translation). -/
inductive Content
  | entryPost (e : Entry)
  | deactivationNotice (feedLink : String) (shownTitle : String) (lang : String)
  deriving Repr, DecidableEq

/-- Outcome of one Telegram delivery attempt: success, one of the three
permanent-failure errors caught by `__send` (`UserIsBlockedError`,
`UserIdInvalidError`, `ChatWriteForbiddenError`), or any other exception,
which `__send` does not catch. -/
inductive SendOutcome
  | delivered
  | permanentFailure (kind : String)
  | unexpectedFailure (msg : String)
  deriving Repr, DecidableEq

/-- The external collaborators of one monitoring cycle.
`render e` is `get_post_from_entry` + `post.generate_message()` for entry `e`
(`Except.error` when it raises); `send uid` is the delivery outcome for
recipient `uid`; `subsOf link` is `db.Sub.filter(feed=feed)` for the feed with
that link, before the `state=1` criterion; `migrate_to_new_url f u` returns
the new `db.Feed` record when migration yields one (`isinstance(..., db.Feed)`)
and `none` otherwise; `default_interval` is
`EffectiveOptions.default_interval`; `get_hash` is the fingerprint digest. -/
structure World where
  get_hash : String → String
  render : Entry → Except String Unit
  send : Int → SendOutcome
  subsOf : String → List Sub
  migrate_to_new_url : Feed → String → Option Feed
  default_interval : Nat

/-- Externally visible side effects accumulated during one poll:
each `feed.save()` call (recording the record as saved), `deactivate_feed`
calls, `update_interval` calls (the no-active-subscribers hook),
`migrate_to_new_url` calls, `__notify_all` dispatches (one per new entry),
rendering attempts, delivery attempts, and every-10th-error warnings. -/
structure Effects where
  saves : List Feed
  deactivate_calls : Nat
  update_interval_calls : Nat
  migrate_calls : Nat
  notifies : List Entry
  renders : List Entry
  sends : List (Int × Content)
  warnings : Nat
  deriving Repr, DecidableEq

def Effects.empty : Effects :=
  { saves := [], deactivate_calls := 0, update_interval_calls := 0,
    migrate_calls := 0, notifies := [], renders := [], sends := [],
    warnings := 0 }

def Effects.append (a b : Effects) : Effects :=
  { saves := a.saves ++ b.saves,
    deactivate_calls := a.deactivate_calls + b.deactivate_calls,
    update_interval_calls := a.update_interval_calls + b.update_interval_calls,
    migrate_calls := a.migrate_calls + b.migrate_calls,
    notifies := a.notifies ++ b.notifies,
    renders := a.renders ++ b.renders,
    sends := a.sends ++ b.sends,
    warnings := a.warnings + b.warnings }

/-- Result of one `__monitor(feed)` poll: the returned outcome string
(`none` when an exception escaped the coroutine instead), the final
in-memory feed record, the accumulated effects, and the escaped exception
message, if any. -/
structure MonitorResult where
  outcome : Option String
  feed : Feed
  eff : Effects
  err : Option String
  deriving Repr, DecidableEq

/-- The six outcome strings of `monitor.py`. -/
def NOT_UPDATED : String := "not_updated"
def CACHED : String := "cached"
def EMPTY : String := "empty"
def FAILED : String := "failed"
def UPDATED : String := "updated"
def SKIPPED : String := "skipped"

/-- Line 114: `if feed.next_check_time and now < feed.next_check_time`. -/
def dueSkip (feed : Feed) (now : Nat) : Bool :=
  match feed.next_check_time with
  | some t => now < t
  | none => false

/-- Lines 117–121: the conditional-fetch headers
(`If-Modified-Since: feed.last_modified or feed.updated_at`, and
`If-None-Match: feed.etag` only when the etag is truthy). -/
structure CondHeaders where
  if_modified_since : Nat
  if_none_match : Option String
  deriving Repr, DecidableEq

def condHeaders (feed : Feed) : CondHeaders :=
  { if_modified_since :=
      match feed.last_modified with
      | some t => t
      | none => feed.updated_at,
    if_none_match := if strTruthy feed.etag then feed.etag else none }

/-- Line 162: `guid = entry.get('guid') or entry.get('link')`, with line 163
skipping the entry when the result is still falsy. -/
def entryGuid (e : Entry) : Option String :=
  if strTruthy e.guid then e.guid
  else if strTruthy e.link then e.link
  else none

/-- Lines 158–169: the deduplication loop. For each entry in source order,
derive its hash (skipping entries without a truthy guid or link); an entry is
new iff its hash is absent from `old_hashes`; collect the new hashes and the
new entries, both in source order. -/
def dedupDiff (get_hash : String → String) (entries : List Entry)
    (old_hashes : List String) : List String × List Entry :=
  match entries with
  | [] => ([], [])
  | e :: rest =>
    let tail := dedupDiff get_hash rest old_hashes
    match entryGuid e with
    | none => tail
    | some guid =>
      let h := get_hash guid
      if h ∈ old_hashes then tail
      else (h :: tail.1, e :: tail.2)

/-- Lines 176–177: merge the new hashes with as many leading old hashes as
fit under the cap `max(len(entries) * 2, 100)`. -/
def mergeHashes (updated_hashes old_hashes : List String)
    (entry_count : Nat) : List String :=
  let length := max (entry_count * 2) 100
  updated_hashes ++ old_hashes.take (length - updated_hashes.length)

/-- `__notify_all(feed, entry)` (lines 193–201): load the feed's subs with
`state=1`; if none, call `update_interval(feed)` (the function does not
return here); build the post (`get_post_from_entry` + `generate_message`,
whose exception would escape); then `asyncio.gather` one `__send` per sub.
Returns the accumulated effects and the first escaped exception, if any.
The permanent-failure branch of `__send` (the per-recipient lock and
`unsub_all`) is process-global state modelled separately by `SendProtocol`
below; at this level a permanent failure is absorbed by `__send` while any
other exception escapes. -/
def notify_all (w : World) (feed : Feed) (entry : Entry) :
    Effects × Option String :=
  let subs := (w.subsOf feed.link).filter (fun s => s.state = 1)
  let updc := if subs = [] then 1 else 0
  let base := { Effects.empty with
                notifies := [entry]
                update_interval_calls := updc
                renders := [entry] }
  match w.render entry with
  | Except.error m => (base, some m)
  | Except.ok _ =>
    let attempts := subs.map (fun s => (s.user_id, Content.entryPost entry))
    let errs := subs.filterMap (fun s =>
      match w.send s.user_id with
      | SendOutcome.unexpectedFailure m => some m
      | _ => none)
    ({ base with sends := attempts }, errs.head?)

/-- `__deactivate_feed_and_notify_all(feed)` (lines 222–239): load the feed's
subs with `state=1`, call the external `deactivate_feed`, return silently if
there is no active sub, otherwise `asyncio.gather` one `__send` of the
deactivation-warning string per sub. -/
def deactivate_and_notify (w : World) (feed : Feed) :
    Effects × Option String :=
  let subs := (w.subsOf feed.link).filter (fun s => s.state = 1)
  let base := { Effects.empty with deactivate_calls := 1 }
  if subs = [] then (base, none)
  else
    let attempts := subs.map (fun s =>
      (s.user_id,
       Content.deactivationNotice feed.link (pyOrStr s.title feed.title)
         s.lang))
    let errs := subs.filterMap (fun s =>
      match w.send s.user_id with
      | SendOutcome.unexpectedFailure m => some m
      | _ => none)
    ({ base with sends := attempts }, errs.head?)

/-- Line 188: `asyncio.gather(*(__notify_all(feed, entry) for entry in
updated_entries))` — all per-entry fanouts run; effects accumulate in entry
order and the first escaped exception propagates. -/
def gatherNotify (w : World) (feed : Feed) (entries : List Entry) :
    Effects × Option String :=
  let results := entries.map (fun e => notify_all w feed e)
  (results.foldl (fun acc r => acc.append r.1) Effects.empty,
   (results.filterMap (fun r => r.2)).head?)

/-- Lines 127–128: reset the error state (`feed.error_count = 0`,
`feed.next_check_time = None`). -/
def clearFeed (feed : Feed) : Feed :=
  { feed with error_count := 0, next_check_time := none }

/-- Lines 126: the recovery condition
`(rss_d is not None or d['status'] == 304) and (feed.error_count > 0 or
feed.next_check_time)`. -/
def recoveryCond (feed : Feed) (d : FetchResult) : Prop :=
  (d.rss_d ≠ none ∨ d.status = 304) ∧
    (feed.error_count ≠ 0 ∨ feed.next_check_time ≠ none)

instance (feed : Feed) (d : FetchResult) : Decidable (recoveryCond feed d) :=
  by unfold recoveryCond; infer_instance

/-- Lines 140–147: the ordinary-backoff transition on a fetch failure:
increment the error count; once it reaches 10, compute
`min(interval, 15) * min(error_count // 10 + 1, 5)` minutes and defer the
next check only when that delay exceeds the configured interval. -/
def backoffStep (w : World) (feed : Feed) (now : Nat) : Feed :=
  let feed2 := { feed with error_count := feed.error_count + 1 }
  if feed2.error_count ≥ 10 then
    let interval := pyOrNat feed2.interval w.default_interval
    let next_check_interval :=
      min interval 15 * min (feed2.error_count / 10 + 1) 5
    if next_check_interval > interval then
      { feed2 with next_check_time := some (now + next_check_interval) }
    else feed2
  else feed2

/-- The body of `__monitor` after the due check (lines 117–190), given the
`feed_get` result `d`. Follows the source structure: error-state recovery
(126–129), cached path (131–133), error path with the deactivation trigger
and the backoff computation (135–149), empty path (151–155), dedup path with
bounded-history merge, caching-header update, save, URL migration and
notification fanout (157–190). -/
def monitorBody (w : World) (feed0 : Feed) (now : Nat) (d : FetchResult) :
    MonitorResult :=
  let feed1 := if recoveryCond feed0 d then clearFeed feed0 else feed0
  let recEff := if recoveryCond feed0 d then
      { Effects.empty with saves := [feed1] }
    else Effects.empty
  if d.status = 304 then
    { outcome := some CACHED, feed := feed1, eff := recEff, err := none }
  else
    match d.rss_d with
    | none =>
      if feed1.error_count ≥ 100 then
        let de := deactivate_and_notify w feed1
        { outcome := if de.2 = none then some FAILED else none,
          feed := feed1, eff := recEff.append de.1, err := de.2 }
      else
        let feed3 := backoffStep w feed1 now
        let warn := if (feed1.error_count + 1) % 10 = 0 then 1 else 0
        { outcome := some FAILED, feed := feed3,
          eff := recEff.append
            { Effects.empty with saves := [feed3], warnings := warn },
          err := none }
    | some rss_d =>
      if rss_d.entries = [] then
        let migEff := if d.url ≠ feed1.link then
            { Effects.empty with migrate_calls := 1 }
          else Effects.empty
        { outcome := some EMPTY, feed := feed1,
          eff := recEff.append migEff, err := none }
      else
        let old_hashes := feed1.entry_hashes.getD []
        let dd := dedupDiff w.get_hash rss_d.entries old_hashes
        if dd.1 = [] then
          { outcome := some NOT_UPDATED, feed := feed1, eff := recEff,
            err := none }
        else
          let new_hashes := mergeHashes dd.1 old_hashes rss_d.entries.length
          let feed2 := { feed1 with
                         entry_hashes := some new_hashes
                         etag := d.respEtag
                         last_modified := d.respLastModified }
          let eff1 := recEff.append { Effects.empty with saves := [feed2] }
          let mig : Feed × Effects :=
            if d.url ≠ feed2.link then
              match w.migrate_to_new_url feed2 d.url with
              | some nf => (nf, { Effects.empty with migrate_calls := 1 })
              | none => (feed2, { Effects.empty with migrate_calls := 1 })
            else (feed2, Effects.empty)
          let gn := gatherNotify w mig.1 dd.2
          { outcome := if gn.2 = none then some UPDATED else none,
            feed := mig.1, eff := (eff1.append mig.2).append gn.1,
            err := gn.2 }

/-- `__monitor(feed)` (lines 106–190): skip when a deferred next-check lies
in the future, otherwise run the body on the fetch result. -/
def monitor (w : World) (feed : Feed) (now : Nat) (d : FetchResult) :
    MonitorResult :=
  if dueSkip feed now then
    { outcome := some SKIPPED, feed := feed, eff := Effects.empty,
      err := none }
  else monitorBody w feed now d

/-- Line 78: `asyncio.gather(*(__monitor(feed) for feed in feeds))` without
`return_exceptions` — if any poll's coroutine raises, the gather raises and
`run_monitor_task` never tallies the cycle; otherwise all outcomes are
collected. -/
def run_monitor_task (w : World) (now : Nat)
    (inputs : List (Feed × FetchResult)) : Except String (List String) :=
  let results := inputs.map (fun p => monitor w p.1 now p.2)
  match (results.filterMap (fun r => r.err)).head? with
  | some m => Except.error m
  | none => Except.ok (results.filterMap (fun r => r.outcome))

/-! ### The blocked-recipient handler under cooperative concurrency

`__send` (lines 204–219) reacts to a permanent delivery failure with:

    user_unsub_all_lock = __user_unsub_all_lock_bucket[user_id]
    if user_unsub_all_lock.locked():
        return
    async with user_unsub_all_lock:
        await inner.sub.unsub_all(user_id)

The bucket is a `defaultdict(asyncio.Lock)`, so each recipient's lock is
created lazily, unlocked. Under asyncio's single-threaded cooperative
scheduling there is no suspension point between catching the exception,
reading the bucket, testing `locked()` and acquiring the uncontended lock,
so that whole segment is one atomic step (`Act.check`); the `unsub_all`
call suspends and its completion releases the lock (`Act.finish`).
`SendProtocol` models N in-flight failure-handler tasks, each tagged with
its recipient (`user`), interleaved by an arbitrary schedule. -/

namespace SendProtocol

/-- Where one permanent-failure handler stands. -/
inductive Phase
  | pending
  | holding
  | returned
  | finished
  deriving DecidableEq

/-- A scheduler step: `check i` runs task `i`'s atomic segment (test the
recipient's lock; return at once if held, otherwise acquire it and begin
`unsub_all`); `finish i` completes task `i`'s `unsub_all` and releases the
lock. -/
inductive Act (n : Nat)
  | check (i : Fin n)
  | finish (i : Fin n)
  deriving DecidableEq

/-- Global state: the lazily-created per-recipient lock bucket (a lock that
was never touched is unlocked), each task's phase, and how many times
`unsub_all(u)` has been started for each recipient `u`. -/
structure CState (n : Nat) where
  lockHeld : Int → Bool
  phase : Fin n → Phase
  unsubs : Int → Nat

def initState (n : Nat) : CState n :=
  { lockHeld := fun _ => false, phase := fun _ => Phase.pending,
    unsubs := fun _ => 0 }

def step {n : Nat} (user : Fin n → Int) (s : CState n) (a : Act n) :
    CState n :=
  match a with
  | Act.check i =>
    match s.phase i with
    | Phase.pending =>
      if s.lockHeld (user i) then
        { s with
          phase := fun j => if j = i then Phase.returned else s.phase j }
      else
        { lockHeld := fun u => if u = user i then true else s.lockHeld u,
          phase := fun j => if j = i then Phase.holding else s.phase j,
          unsubs := fun u =>
            if u = user i then s.unsubs u + 1 else s.unsubs u }
    | _ => s
  | Act.finish i =>
    match s.phase i with
    | Phase.holding =>
      { s with
        phase := fun j => if j = i then Phase.finished else s.phase j,
        lockHeld := fun u => if u = user i then false else s.lockHeld u }
    | _ => s

def run {n : Nat} (user : Fin n → Int) (s : CState n) (σ : List (Act n)) :
    CState n :=
  σ.foldl (step user) s

def Act.isCheck {n : Nat} : Act n → Bool
  | Act.check _ => true
  | Act.finish _ => false

/-- Whether an action is the atomic check segment of a handler for
recipient `u`. -/
def Act.isCheckOf {n : Nat} (user : Fin n → Int) (u : Int) : Act n → Bool
  | Act.check i => user i == u
  | Act.finish _ => false

end SendProtocol

/-! ### Concrete collaborators and records used in scenario evaluations -/

/-- One active subscriber (id 7) of the feed with link `"L"`. -/
def subsL : List Sub :=
  [{ user_id := 7, state := 1, title := none, lang := "en" }]

/-- A benign world: identity fingerprints, rendering succeeds, every
delivery succeeds, feed `"L"` has the single active subscriber above. -/
def wBenign : World :=
  { get_hash := id
    render := fun _ => Except.ok ()
    send := fun _ => SendOutcome.delivered
    subsOf := fun l => if l = "L" then subsL else []
    migrate_to_new_url := fun _ _ => none
    default_interval := 60 }

/-- As `wBenign` but with no subscribers at all. -/
def wNoSubs : World :=
  { wBenign with subsOf := fun _ => [] }

/-- As `wBenign` but post rendering raises an unclassified exception. -/
def wRaise : World :=
  { wBenign with render := fun _ => Except.error "boom" }

/-- A healthy feed with stored fingerprints `["h1", "h2"]` and a 5-minute
interval. -/
def feedL : Feed :=
  { link := "L", title := "T", etag := none, last_modified := none,
    updated_at := 0, interval := some 5, error_count := 0,
    next_check_time := none, entry_hashes := some ["h1", "h2"] }

/-- An entry whose guid is its own fingerprint under identity hashing. -/
def entryOf (g : String) : Entry := { guid := some g, link := none }

/-- A successful fetch of entries with the given guids, reached at the
stored address. -/
def dSuccess (gs : List String) : FetchResult :=
  { rss_d := some { entries := gs.map entryOf }, status := 200, url := "L",
    respEtag := none, respLastModified := none, msg := "" }

/-- Two distinct entries sharing one guid (hence one fingerprint under
identity hashing) but with different links. -/
def dupEntry1 : Entry := { guid := some "g", link := some "a" }

def dupEntry2 : Entry := { guid := some "g", link := some "b" }

/-- A successful fetch whose batch carries the two duplicate-fingerprint
entries above. -/
def dDup : FetchResult :=
  { rss_d := some { entries := [dupEntry1, dupEntry2] }, status := 200,
    url := "L", respEtag := none, respLastModified := none, msg := "" }

/-- A not-modified (304) fetch result. -/
def dCache : FetchResult :=
  { rss_d := none, status := 304, url := "L", respEtag := none,
    respLastModified := none, msg := "" }

/-- A failed fetch (`rss_d is None`, status not 304). -/
def dFail : FetchResult :=
  { rss_d := none, status := 200, url := "L", respEtag := none,
    respLastModified := none, msg := "oops" }

/-! ### Helper lemmas about the effect algebra and the fanout -/

@[simp]
theorem clearFeed_entry_hashes (f : Feed) :
    (clearFeed f).entry_hashes = f.entry_hashes := rfl

@[simp]
theorem clearFeed_link (f : Feed) : (clearFeed f).link = f.link := rfl

@[simp]
theorem clearFeed_interval (f : Feed) :
    (clearFeed f).interval = f.interval := rfl

@[simp]
theorem clearFeed_title (f : Feed) : (clearFeed f).title = f.title := rfl

@[simp]
theorem clearFeed_error_count (f : Feed) :
    (clearFeed f).error_count = 0 := rfl

@[simp]
theorem clearFeed_next_check_time (f : Feed) :
    (clearFeed f).next_check_time = none := rfl

theorem ite_clearFeed_entry_hashes (c : Prop) [Decidable c] (f : Feed) :
    (if c then clearFeed f else f).entry_hashes = f.entry_hashes := by
  split <;> rfl

theorem ite_clearFeed_link (c : Prop) [Decidable c] (f : Feed) :
    (if c then clearFeed f else f).link = f.link := by
  split <;> rfl

theorem ite_recEff_saves (c : Prop) [Decidable c] (l : List Feed) :
    (if c then { Effects.empty with saves := l } else Effects.empty).saves =
      if c then l else [] := by
  split <;> rfl

theorem ite_recEff_notifies (c : Prop) [Decidable c] (l : List Feed) :
    (if c then { Effects.empty with saves := l }
     else Effects.empty).notifies = [] := by
  split <;> rfl

theorem ite_recEff_renders (c : Prop) [Decidable c] (l : List Feed) :
    (if c then { Effects.empty with saves := l }
     else Effects.empty).renders = [] := by
  split <;> rfl

theorem ite_recEff_sends (c : Prop) [Decidable c] (l : List Feed) :
    (if c then { Effects.empty with saves := l }
     else Effects.empty).sends = [] := by
  split <;> rfl

theorem ite_recEff_deactivate (c : Prop) [Decidable c] (l : List Feed) :
    (if c then { Effects.empty with saves := l }
     else Effects.empty).deactivate_calls = 0 := by
  split <;> rfl

theorem ite_recEff_update_interval (c : Prop) [Decidable c] (l : List Feed) :
    (if c then { Effects.empty with saves := l }
     else Effects.empty).update_interval_calls = 0 := by
  split <;> rfl

@[simp]
theorem Effects.append_saves (a b : Effects) :
    (a.append b).saves = a.saves ++ b.saves := rfl

@[simp]
theorem Effects.append_notifies (a b : Effects) :
    (a.append b).notifies = a.notifies ++ b.notifies := rfl

@[simp]
theorem Effects.append_renders (a b : Effects) :
    (a.append b).renders = a.renders ++ b.renders := rfl

@[simp]
theorem Effects.append_sends (a b : Effects) :
    (a.append b).sends = a.sends ++ b.sends := rfl

@[simp]
theorem Effects.append_deactivate (a b : Effects) :
    (a.append b).deactivate_calls = a.deactivate_calls + b.deactivate_calls :=
  rfl

@[simp]
theorem Effects.append_update_interval (a b : Effects) :
    (a.append b).update_interval_calls =
      a.update_interval_calls + b.update_interval_calls := rfl

@[simp]
theorem Effects.append_migrate (a b : Effects) :
    (a.append b).migrate_calls = a.migrate_calls + b.migrate_calls := rfl

@[simp]
theorem Effects.append_warnings (a b : Effects) :
    (a.append b).warnings = a.warnings + b.warnings := rfl

theorem Effects.empty_append (b : Effects) : Effects.empty.append b = b := by
  cases b
  simp [Effects.append, Effects.empty]

theorem Effects.append_empty (a : Effects) : a.append Effects.empty = a := by
  cases a
  simp [Effects.append, Effects.empty]

theorem Effects.append_assoc (a b c : Effects) :
    (a.append b).append c = a.append (b.append c) := by
  cases a
  cases b
  cases c
  simp [Effects.append, Nat.add_assoc]

theorem foldl_append_eff (rs : List (Effects × Option String))
    (acc : Effects) :
    rs.foldl (fun a r => a.append r.1) acc =
      acc.append (rs.foldl (fun a r => a.append r.1) Effects.empty) := by
  induction rs generalizing acc with
  | nil => simp [Effects.append_empty]
  | cons r rs ih =>
    simp only [List.foldl_cons]
    rw [ih, ih (Effects.empty.append r.1), Effects.empty_append,
      Effects.append_assoc]

theorem notify_all_saves (w : World) (f : Feed) (e : Entry) :
    (notify_all w f e).1.saves = [] := by
  cases h : w.render e <;> simp [notify_all, h, Effects.empty]

theorem notify_all_notifies (w : World) (f : Feed) (e : Entry) :
    (notify_all w f e).1.notifies = [e] := by
  cases h : w.render e <;> simp [notify_all, h, Effects.empty]

theorem notify_all_err_none (w : World) (f : Feed) (e : Entry)
    (hrender : w.render e = Except.ok ())
    (hsend : ∀ u m, w.send u ≠ SendOutcome.unexpectedFailure m) :
    (notify_all w f e).2 = none := by
  simp only [notify_all, hrender]
  rw [List.head?_eq_none_iff, List.filterMap_eq_nil_iff]
  intro s _
  cases hu : w.send s.user_id with
  | unexpectedFailure m => exact absurd hu (hsend s.user_id m)
  | delivered => rfl
  | permanentFailure _ => rfl

theorem gatherNotify_nil (w : World) (f : Feed) :
    gatherNotify w f [] = (Effects.empty, none) := rfl

theorem gatherNotify_eff_cons (w : World) (f : Feed) (e : Entry)
    (es : List Entry) :
    (gatherNotify w f (e :: es)).1 =
      (notify_all w f e).1.append (gatherNotify w f es).1 := by
  simp only [gatherNotify, List.map_cons, List.foldl_cons]
  rw [foldl_append_eff, Effects.empty_append]

theorem gatherNotify_err_cons (w : World) (f : Feed) (e : Entry)
    (es : List Entry) :
    (gatherNotify w f (e :: es)).2 =
      (match (notify_all w f e).2 with
       | some m => some m
       | none => (gatherNotify w f es).2) := by
  simp only [gatherNotify, List.map_cons, List.filterMap_cons]
  cases h : (notify_all w f e).2 <;> simp

theorem gatherNotify_saves (w : World) (f : Feed) (es : List Entry) :
    (gatherNotify w f es).1.saves = [] := by
  induction es with
  | nil => rfl
  | cons e es ih =>
    rw [gatherNotify_eff_cons]
    simp [notify_all_saves, ih]

theorem gatherNotify_notifies (w : World) (f : Feed) (es : List Entry) :
    (gatherNotify w f es).1.notifies = es := by
  induction es with
  | nil => rfl
  | cons e es ih =>
    rw [gatherNotify_eff_cons]
    simp [notify_all_notifies, ih]

theorem gatherNotify_err_none (w : World) (f : Feed) (es : List Entry)
    (hrender : ∀ e ∈ es, w.render e = Except.ok ())
    (hsend : ∀ u m, w.send u ≠ SendOutcome.unexpectedFailure m) :
    (gatherNotify w f es).2 = none := by
  induction es with
  | nil => rfl
  | cons e es ih =>
    rw [gatherNotify_err_cons]
    rw [notify_all_err_none w f e (hrender e (List.mem_cons_self e es)) hsend]
    exact ih (fun x hx => hrender x (List.mem_cons_of_mem e hx))

/-- The deactivation notice built for subscriber `s` of `feed`
(lines 233–236). -/
def deactivationContent (feed : Feed) (s : Sub) : Int × Content :=
  (s.user_id,
   Content.deactivationNotice feed.link (pyOrStr s.title feed.title) s.lang)

theorem deactivate_and_notify_calls (w : World) (f : Feed) :
    (deactivate_and_notify w f).1.deactivate_calls = 1 := by
  simp only [deactivate_and_notify]
  split <;> rfl

theorem deactivate_and_notify_saves (w : World) (f : Feed) :
    (deactivate_and_notify w f).1.saves = [] := by
  simp only [deactivate_and_notify]
  split <;> rfl

theorem deactivate_and_notify_renders (w : World) (f : Feed) :
    (deactivate_and_notify w f).1.renders = [] := by
  simp only [deactivate_and_notify]
  split <;> rfl

theorem deactivate_and_notify_sends (w : World) (f : Feed) :
    (deactivate_and_notify w f).1.sends =
      ((w.subsOf f.link).filter (fun s => s.state = 1)).map
        (deactivationContent f) := by
  simp only [deactivate_and_notify, deactivationContent]
  split
  case isTrue h => simp [h, Effects.empty]
  case isFalse h => rfl

theorem deactivate_and_notify_err_none (w : World) (f : Feed)
    (hsend : ∀ u m, w.send u ≠ SendOutcome.unexpectedFailure m) :
    (deactivate_and_notify w f).2 = none := by
  simp only [deactivate_and_notify]
  split
  case isTrue h => rfl
  case isFalse h =>
    simp only []
    rw [List.head?_eq_none_iff, List.filterMap_eq_nil_iff]
    intro s _
    cases hu : w.send s.user_id with
    | unexpectedFailure m => exact absurd hu (hsend s.user_id m)
    | delivered => rfl
    | permanentFailure _ => rfl

/-! ### C1 — deactivation threshold -/

/-- C1: when a fetch fails while the feed's consecutive error count has
reached 100, the feed is deactivated instead of receiving ordinary backoff
(error count and next-check time are untouched, no `feed.save()` happens),
the poll's outcome is `failed`, exactly one deactivation notice is
dispatched to each currently-active subscriber (in subscription order), and
with zero active subscribers no send is attempted at all. -/
theorem deactivation_threshold (w : World) (feed : Feed) (now : Nat)
    (d : FetchResult)
    (hsk : dueSkip feed now = false)
    (hrss : d.rss_d = none) (hst : d.status ≠ 304)
    (hec : feed.error_count ≥ 100)
    (hsend : ∀ u m, w.send u ≠ SendOutcome.unexpectedFailure m) :
    (monitor w feed now d).outcome = some FAILED ∧
    (monitor w feed now d).eff.deactivate_calls = 1 ∧
    (monitor w feed now d).eff.sends =
      ((w.subsOf feed.link).filter (fun s => s.state = 1)).map
        (deactivationContent feed) ∧
    ((w.subsOf feed.link).filter (fun s => s.state = 1) = [] →
      (monitor w feed now d).eff.sends = []) ∧
    (monitor w feed now d).feed.error_count = feed.error_count ∧
    (monitor w feed now d).feed.next_check_time = feed.next_check_time ∧
    (monitor w feed now d).eff.saves = [] := by
  have hrec : ¬ recoveryCond feed d := by
    simp [recoveryCond, hrss, hst]
  have h100 : feed.error_count ≥ 100 := hec
  simp only [monitor, hsk, Bool.false_eq_true, if_false, monitorBody,
    if_neg hrec, if_neg hst, hrss]
  rw [if_pos h100]
  rw [deactivate_and_notify_err_none w feed hsend]
  refine ⟨rfl, ?_, ?_, ?_, rfl, rfl, ?_⟩
  · simp [Effects.empty, deactivate_and_notify_calls]
  · simp [Effects.empty, deactivate_and_notify_sends]
  · intro hnil
    simp [Effects.empty, deactivate_and_notify_sends, hnil]
  · simp [Effects.empty, deactivate_and_notify_saves]

/-- Witness for C1 at a concrete input: a feed at error count 100 whose
fetch fails, with one active subscriber. -/
theorem deactivation_threshold_witness :
    (100 : Nat) ≥ 100 ∧
    ((monitor wBenign { feedL with error_count := 100 } 1000 dFail).outcome
        = some FAILED ∧
      (monitor wBenign { feedL with error_count := 100 } 1000
          dFail).eff.sends =
        [(7, Content.deactivationNotice "L" "T" "en")]) := by
  refine ⟨by decide, ?_, ?_⟩
  · exact (deactivation_threshold wBenign { feedL with error_count := 100 }
      1000 dFail rfl rfl (by decide) (by decide)
      (fun u m h => SendOutcome.noConfusion h)).1
  · have h := (deactivation_threshold wBenign
      { feedL with error_count := 100 } 1000 dFail rfl rfl (by decide)
      (by decide) (fun u m h => SendOutcome.noConfusion h)).2.2.1
    rw [h]
    rfl

/-! ### C2 — backoff boundary scenario -/

/-- C2 counterexample: at the claim's own scenario (fetch failure moving
error_count from 9 to 10, interval = 5 minutes) the code computes
`min(5, 15) * min(10 // 10 + 1, 5) = 10` minutes, not 5, and since 10
exceeds the interval the next-eligible-check is set to now + 10 — it does
not remain unset as claimed. -/
theorem backoff_boundary_counterexample :
    (monitor wBenign { feedL with error_count := 9 } 1000
        dFail).feed.next_check_time = some 1010 ∧
    (monitor wBenign { feedL with error_count := 9 } 1000
        dFail).feed.next_check_time ≠ none := by
  refine ⟨by decide, by decide⟩

/-- C2 (amended): when a fetch fails moving a feed's error count from 9 to
10 and the feed's interval is 5 minutes, the computed backoff delay equals
`min(5, 15) * min(10 // 10 + 1, 5) = 10` minutes, which exceeds the
interval, so the next-eligible-check is set to now + 10 minutes and the
poll's outcome is `failed`. -/
theorem backoff_boundary_amended (w : World) (feed : Feed) (now : Nat)
    (d : FetchResult)
    (hsk : dueSkip feed now = false)
    (hrss : d.rss_d = none) (hst : d.status ≠ 304)
    (hec : feed.error_count = 9) (hiv : feed.interval = some 5) :
    (monitor w feed now d).outcome = some FAILED ∧
    (monitor w feed now d).feed.error_count = 10 ∧
    (monitor w feed now d).feed.next_check_time = some (now + 10) := by
  have hrec : ¬ recoveryCond feed d := by
    simp [recoveryCond, hrss, hst]
  have hlt : ¬ feed.error_count ≥ 100 := by omega
  simp only [monitor, hsk, Bool.false_eq_true, if_false, monitorBody,
    if_neg hrec, if_neg hst, hrss]
  rw [if_neg hlt]
  refine ⟨rfl, ?_, ?_⟩ <;>
    simp [backoffStep, hec, hiv, pyOrNat]

/-- Witness for C2 (amended) at the concrete scenario input. -/
theorem backoff_boundary_amended_witness :
    ({ feedL with error_count := 9 } : Feed).error_count = 9 ∧
    (monitor wBenign { feedL with error_count := 9 } 1000
        dFail).feed.next_check_time = some (1000 + 10) :=
  ⟨rfl, (backoff_boundary_amended wBenign { feedL with error_count := 9 }
    1000 dFail rfl rfl (by decide) rfl rfl).2.2⟩

/-! ### C9 — error-state recovery -/

/-- C9: whenever the fetch yields a cache-hit (status 304) or a success
(`rss_d` present) and the feed previously had a positive error count or a
deferred next-eligible-check, both are cleared and persisted immediately:
the first `feed.save()` of the poll writes the record with
`error_count = 0` and `next_check_time = None`. In particular a
not-modified fetch with prior errors yields outcome `cached` and the final
feed state is cleared. -/
theorem error_state_recovery (w : World) (feed : Feed) (now : Nat)
    (d : FetchResult)
    (hsk : dueSkip feed now = false)
    (hok : d.rss_d ≠ none ∨ d.status = 304)
    (hprior : feed.error_count ≠ 0 ∨ feed.next_check_time ≠ none) :
    (monitor w feed now d).eff.saves.head? = some (clearFeed feed) ∧
    (d.status = 304 →
      (monitor w feed now d).outcome = some CACHED ∧
      (monitor w feed now d).feed.error_count = 0 ∧
      (monitor w feed now d).feed.next_check_time = none) := by
  have hrec : recoveryCond feed d := ⟨hok, hprior⟩
  simp only [monitor, hsk, Bool.false_eq_true, if_false, monitorBody,
    if_pos hrec]
  by_cases h304 : d.status = 304
  · rw [if_pos h304]
    exact ⟨rfl, fun _ => ⟨rfl, rfl, rfl⟩⟩
  · rw [if_neg h304]
    refine ?_
    have hne : d.rss_d ≠ none := by
      rcases hok with h | h
      · exact h
      · exact absurd h h304
    cases hd : d.rss_d with
    | none => exact absurd hd hne
    | some rss =>
      dsimp only
      refine ⟨?_, fun h => absurd h h304⟩
      by_cases hemp : rss.entries = []
      · simp [hemp, Effects.empty]
      · rw [if_neg hemp]
        simp only [clearFeed_entry_hashes]
        by_cases hdd : (dedupDiff w.get_hash rss.entries
            (feed.entry_hashes.getD [])).1 = []
        · rw [if_pos hdd]
          simp [Effects.empty]
        · rw [if_neg hdd]
          simp [Effects.empty]

/-- Witness for C9 at the concrete scenario: a not-modified fetch with
prior `error_count = 3`. -/
theorem error_state_recovery_witness :
    ((3 : Nat) ≠ 0 ∨ (none : Option Nat) ≠ none) ∧
    ((monitor wBenign { feedL with error_count := 3 } 1000
        dCache).eff.saves.head? =
      some (clearFeed { feedL with error_count := 3 }) ∧
    (monitor wBenign { feedL with error_count := 3 } 1000 dCache).outcome
        = some CACHED) := by
  have h := error_state_recovery wBenign { feedL with error_count := 3 }
    1000 dCache rfl (Or.inr rfl) (Or.inl (by decide))
  exact ⟨Or.inl (by decide), h.1, (h.2 rfl).1⟩

/-! ### C4 — outcome and write counts of one poll -/

theorem ite_migEff_saves (c : Prop) [Decidable c] :
    (if c then { Effects.empty with migrate_calls := 1 }
     else Effects.empty).saves = [] := by
  split <;> rfl

theorem monitorBody_saves_le (w : World) (feed : Feed) (now : Nat)
    (d : FetchResult) :
    (monitorBody w feed now d).eff.saves.length ≤ 2 := by
  by_cases hrec : recoveryCond feed d
  · simp only [monitorBody, if_pos hrec]
    by_cases h304 : d.status = 304
    · rw [if_pos h304]
      simp
    · rw [if_neg h304]
      cases hd : d.rss_d with
      | none => exact absurd hrec (by simp [recoveryCond, hd, h304])
      | some rss =>
        dsimp only
        by_cases hemp : rss.entries = []
        · rw [if_pos hemp]
          simp only [Effects.append_saves, List.length_append]
          split <;> simp [Effects.empty]
        · rw [if_neg hemp]
          simp only [clearFeed_entry_hashes]
          by_cases hdd : (dedupDiff w.get_hash rss.entries
              (feed.entry_hashes.getD [])).1 = []
          · rw [if_pos hdd]
            simp
          · rw [if_neg hdd]
            simp only [Effects.append_saves, gatherNotify_saves,
              List.append_nil, List.length_append]
            split <;> (try split) <;> simp_all [Effects.empty]
  · simp only [monitorBody, if_neg hrec]
    by_cases h304 : d.status = 304
    · rw [if_pos h304]
      simp [Effects.empty]
    · rw [if_neg h304]
      cases hd : d.rss_d with
      | none =>
        dsimp only
        by_cases hec : feed.error_count ≥ 100
        · rw [if_pos hec]
          simp [deactivate_and_notify_saves, Effects.empty]
        · rw [if_neg hec]
          simp [Effects.empty]
      | some rss =>
        dsimp only
        by_cases hemp : rss.entries = []
        · rw [if_pos hemp]
          simp only [Effects.append_saves, List.length_append]
          split <;> simp [Effects.empty]
        · rw [if_neg hemp]
          by_cases hdd : (dedupDiff w.get_hash rss.entries
              (feed.entry_hashes.getD [])).1 = []
          · rw [if_pos hdd]
            simp [Effects.empty]
          · rw [if_neg hdd]
            simp only [Effects.append_saves, gatherNotify_saves,
              List.append_nil, List.length_append]
            split <;> (try split) <;> simp_all [Effects.empty]

theorem monitorBody_saves_le_one (w : World) (feed : Feed) (now : Nat)
    (d : FetchResult) (hrec : ¬ recoveryCond feed d) :
    (monitorBody w feed now d).eff.saves.length ≤ 1 := by
  simp only [monitorBody, if_neg hrec]
  by_cases h304 : d.status = 304
  · rw [if_pos h304]
    simp [Effects.empty]
  · rw [if_neg h304]
    cases hd : d.rss_d with
    | none =>
      dsimp only
      by_cases hec : feed.error_count ≥ 100
      · rw [if_pos hec]
        simp [deactivate_and_notify_saves, Effects.empty]
      · rw [if_neg hec]
        simp [Effects.empty]
    | some rss =>
      dsimp only
      by_cases hemp : rss.entries = []
      · rw [if_pos hemp]
        simp only [Effects.append_saves, List.length_append]
        split <;> simp [Effects.empty]
      · rw [if_neg hemp]
        by_cases hdd : (dedupDiff w.get_hash rss.entries
            (feed.entry_hashes.getD [])).1 = []
        · rw [if_pos hdd]
          simp [Effects.empty]
        · rw [if_neg hdd]
          simp only [Effects.append_saves, gatherNotify_saves,
            List.append_nil, List.length_append]
          split <;> (try split) <;> simp_all [Effects.empty]

theorem monitorBody_outcome_mem (w : World) (feed : Feed) (now : Nat)
    (d : FetchResult)
    (hrender : ∀ e, w.render e = Except.ok ())
    (hsend : ∀ u m, w.send u ≠ SendOutcome.unexpectedFailure m) :
    ∃ o, (monitorBody w feed now d).outcome = some o ∧
      (o = NOT_UPDATED ∨ o = CACHED ∨ o = EMPTY ∨ o = FAILED ∨
       o = UPDATED) := by
  simp only [monitorBody]
  by_cases h304 : d.status = 304
  · rw [if_pos h304]
    split <;> exact ⟨CACHED, rfl, by simp⟩
  · rw [if_neg h304]
    cases hd : d.rss_d with
    | none =>
      dsimp only
      split
      · split
        · rw [deactivate_and_notify_err_none w _ hsend]
          exact ⟨FAILED, by simp, by simp⟩
        · exact ⟨FAILED, rfl, by simp⟩
      · split
        · rw [deactivate_and_notify_err_none w _ hsend]
          exact ⟨FAILED, by simp, by simp⟩
        · exact ⟨FAILED, rfl, by simp⟩
    | some rss =>
      dsimp only
      by_cases hemp : rss.entries = []
      · rw [if_pos hemp]
        exact ⟨EMPTY, rfl, by simp⟩
      · rw [if_neg hemp]
        by_cases hdd : (dedupDiff w.get_hash rss.entries
            ((if recoveryCond feed d then clearFeed feed
              else feed).entry_hashes.getD [])).1 = []
        · rw [if_pos hdd]
          exact ⟨NOT_UPDATED, rfl, by simp⟩
        · rw [if_neg hdd]
          refine ⟨UPDATED, ?_, by simp⟩
          have hg : ∀ (f : Feed) (es : List Entry),
              (gatherNotify w f es).2 = none :=
            fun f es => gatherNotify_err_none w f es
              (fun e _ => hrender e) hsend
          simp [hg]

/-- C4 counterexample: a successful fetch carrying one new entry, on a feed
whose prior `error_count` is 1, performs TWO `feed.save()` writes — the
immediate error-state recovery write (line 129) and the
fingerprint/caching-header update write (line 182) — refuting "at most one
persistence write". -/
theorem single_write_counterexample :
    (monitor wBenign { feedL with error_count := 1 } 1000
        (dSuccess ["h3"])).eff.saves.length = 2 := by decide

/-- C4 (amended): given that no unclassified collaborator failure escapes,
every poll of a feed returns exactly one of the six outcome strings, and
invokes `feed.save()` at most TWICE — the immediate error-state recovery
write plus at most one outcome write; when the feed carried no prior error
state (zero error count, no deferred next-check) at most ONE write
happens. -/
theorem single_write_amended (w : World) (feed : Feed) (now : Nat)
    (d : FetchResult)
    (hrender : ∀ e, w.render e = Except.ok ())
    (hsend : ∀ u m, w.send u ≠ SendOutcome.unexpectedFailure m) :
    (∃ o, (monitor w feed now d).outcome = some o ∧
      (o = NOT_UPDATED ∨ o = CACHED ∨ o = EMPTY ∨ o = FAILED ∨
       o = UPDATED ∨ o = SKIPPED)) ∧
    (monitor w feed now d).eff.saves.length ≤ 2 ∧
    (feed.error_count = 0 ∧ feed.next_check_time = none →
      (monitor w feed now d).eff.saves.length ≤ 1) := by
  by_cases hsk : dueSkip feed now = true
  · refine ⟨⟨SKIPPED, ?_, by simp⟩, ?_, fun _ => ?_⟩ <;>
      simp [monitor, hsk, Effects.empty]
  · have hsk' : dueSkip feed now = false := by
      simpa using hsk
    have hmb : monitor w feed now d = monitorBody w feed now d := by
      simp [monitor, hsk']
    rw [hmb]
    refine ⟨?_, monitorBody_saves_le w feed now d, ?_⟩
    · obtain ⟨o, ho, hmem⟩ := monitorBody_outcome_mem w feed now d
        hrender hsend
      exact ⟨o, ho, by tauto⟩
    · rintro ⟨h1, h2⟩
      refine monitorBody_saves_le_one w feed now d ?_
      simp [recoveryCond, h1, h2]

/-- Witness for C4 (amended) at a concrete input: a healthy feed with a
successful fetch carrying one new entry. -/
theorem single_write_amended_witness :
    (∃ o, (monitor wBenign feedL 1000 (dSuccess ["h3"])).outcome = some o ∧
      (o = NOT_UPDATED ∨ o = CACHED ∨ o = EMPTY ∨ o = FAILED ∨
       o = UPDATED ∨ o = SKIPPED)) ∧
    (monitor wBenign feedL 1000 (dSuccess ["h3"])).eff.saves.length ≤ 1 := by
  have h := single_write_amended wBenign feedL 1000 (dSuccess ["h3"])
    (fun e => rfl) (fun u m hu => SendOutcome.noConfusion hu)
  exact ⟨h.1, h.2.2 ⟨rfl, rfl⟩⟩

/-! ### C5 — fanout with no subscribers -/

/-- C5 counterexample: `__notify_all` does NOT stop after signalling the
no-active-subscribers hook — there is no `return` after
`update_interval(feed)` at line 196 — so with zero active subscriptions it
still renders the entry's message (refuting "it renders no message"),
although it delivers nothing. -/
theorem fanout_no_subscribers_counterexample :
    (notify_all wNoSubs feedL (entryOf "x")).1.update_interval_calls = 1 ∧
    (notify_all wNoSubs feedL (entryOf "x")).1.renders ≠ [] ∧
    (notify_all wNoSubs feedL (entryOf "x")).1.renders = [entryOf "x"] ∧
    (notify_all wNoSubs feedL (entryOf "x")).1.sends = [] := by
  refine ⟨by decide, by decide, by decide, by decide⟩

/-- C5 (amended): for a feed and a newly-seen entry, when zero active
subscriptions exist `__notify_all` signals the external
no-active-subscribers hook but does not stop: it still renders the
message, and delivers nothing; when at least one active subscription
exists it does not signal the hook, renders one message and delivers it to
every subscription's recipient. -/
theorem fanout_no_subscribers_amended (w : World) (feed : Feed) (e : Entry)
    (hrender : w.render e = Except.ok ()) :
    ((w.subsOf feed.link).filter (fun s => s.state = 1) = [] →
      (notify_all w feed e).1.update_interval_calls = 1 ∧
      (notify_all w feed e).1.renders = [e] ∧
      (notify_all w feed e).1.sends = []) ∧
    ((w.subsOf feed.link).filter (fun s => s.state = 1) ≠ [] →
      (notify_all w feed e).1.update_interval_calls = 0 ∧
      (notify_all w feed e).1.renders = [e] ∧
      (notify_all w feed e).1.sends =
        ((w.subsOf feed.link).filter (fun s => s.state = 1)).map
          (fun s => (s.user_id, Content.entryPost e))) := by
  constructor
  · intro hnil
    simp [notify_all, hrender, hnil, Effects.empty]
  · intro hne
    simp [notify_all, hrender, hne, Effects.empty]

/-- Witness for C5 (amended): the no-subscriber half at `wNoSubs` and the
subscribed half at `wBenign` (one active subscriber, id 7). -/
theorem fanout_no_subscribers_amended_witness :
    ((notify_all wNoSubs feedL (entryOf "y")).1.update_interval_calls = 1 ∧
      (notify_all wNoSubs feedL (entryOf "y")).1.renders = [entryOf "y"] ∧
      (notify_all wNoSubs feedL (entryOf "y")).1.sends = []) ∧
    (notify_all wBenign feedL (entryOf "y")).1.sends =
      [(7, Content.entryPost (entryOf "y"))] := by
  constructor
  · exact (fanout_no_subscribers_amended wNoSubs feedL (entryOf "y")
      rfl).1 rfl
  · have h := (fanout_no_subscribers_amended wBenign feedL (entryOf "y")
      rfl).2 (by decide)
    rw [h.2.2]
    rfl

/-! ### C7 — dedup diff/merge scenario -/

/-- C7: with stored fingerprints `[h1, h2]` and a fetch of three entries
whose fingerprints are `[h3, h1, h2]` in source order, the dedup loop
yields exactly `[h3]` as new fingerprints (in source order), the merged
history is `[h3, h1, h2]`, the poll's outcome is `updated`, and exactly one
notification fanout is dispatched, for the entry carrying `h3`. -/
theorem dedup_merge_scenario (w : World) (feed : Feed) (now : Nat)
    (d : FetchResult) (rss : RssD) (e1 e2 e3 : Entry)
    (ga gb gc h1 h2 h3 : String)
    (hsk : dueSkip feed now = false) (hst : d.status ≠ 304)
    (hrss : d.rss_d = some rss) (hent : rss.entries = [e1, e2, e3])
    (hold : feed.entry_hashes = some [h1, h2])
    (hg1 : entryGuid e1 = some ga) (hh1 : w.get_hash ga = h3)
    (hg2 : entryGuid e2 = some gb) (hh2 : w.get_hash gb = h1)
    (hg3 : entryGuid e3 = some gc) (hh3 : w.get_hash gc = h2)
    (hne1 : h3 ≠ h1) (hne2 : h3 ≠ h2)
    (hurl : d.url = feed.link)
    (hrender : ∀ e, w.render e = Except.ok ())
    (hsend : ∀ u m, w.send u ≠ SendOutcome.unexpectedFailure m) :
    dedupDiff w.get_hash rss.entries [h1, h2] = ([h3], [e1]) ∧
    (monitor w feed now d).outcome = some UPDATED ∧
    (monitor w feed now d).feed.entry_hashes = some [h3, h1, h2] ∧
    (monitor w feed now d).eff.notifies = [e1] := by
  have hdd0 : dedupDiff w.get_hash [e1, e2, e3] [h1, h2] = ([h3], [e1]) := by
    simp [dedupDiff, hg1, hg2, hg3, hh1, hh2, hh3, hne1, hne2]
  refine ⟨by rw [hent]; exact hdd0, ?_⟩
  simp only [monitor, hsk, Bool.false_eq_true, if_false, monitorBody,
    if_neg hst, hrss]
  try dsimp only
  rw [hent, ite_clearFeed_entry_hashes, hold]
  simp only [Option.getD_some]
  rw [hdd0]
  try dsimp only
  rw [if_neg (by simp : ¬([e1, e2, e3] : List Entry) = []),
    if_neg (by simp : ¬([h3] : List String) = [])]
  rw [ite_clearFeed_link]
  have hnomig : ¬ (d.url ≠ feed.link) := fun hx => hx hurl
  rw [if_neg hnomig]
  try dsimp only
  have hgn : ∀ (f : Feed), (gatherNotify w f [e1]).2 = none :=
    fun f => gatherNotify_err_none w f [e1] (fun e _ => hrender e) hsend
  have hgn2 : ∀ (f : Feed), (gatherNotify w f [e1]).1.notifies = [e1] :=
    fun f => gatherNotify_notifies w f [e1]
  rw [hgn]
  refine ⟨by simp, by rfl, ?_⟩
  simp only [Effects.append_notifies, hgn2, ite_recEff_notifies]
  simp [Effects.empty]

/-- Witness for C7 at the concrete scenario: stored `["h1", "h2"]`, fetch
of three entries with guids (= fingerprints under identity hashing)
`["h3", "h1", "h2"]`. -/
theorem dedup_merge_scenario_witness :
    dedupDiff wBenign.get_hash
        (RssD.entries { entries := [entryOf "h3", entryOf "h1",
          entryOf "h2"] }) ["h1", "h2"] = (["h3"], [entryOf "h3"]) ∧
    (monitor wBenign feedL 1000 (dSuccess ["h3", "h1", "h2"])).outcome
      = some UPDATED ∧
    (monitor wBenign feedL 1000
        (dSuccess ["h3", "h1", "h2"])).feed.entry_hashes
      = some ["h3", "h1", "h2"] := by
  have h := dedup_merge_scenario wBenign feedL 1000
    (dSuccess ["h3", "h1", "h2"])
    { entries := [entryOf "h3", entryOf "h1", entryOf "h2"] }
    (entryOf "h3") (entryOf "h1") (entryOf "h2")
    "h3" "h1" "h2" "h1" "h2" "h3"
    rfl (by decide) rfl rfl rfl rfl rfl rfl rfl rfl rfl
    (by decide) (by decide) rfl (fun e => rfl)
    (fun u m hu => SendOutcome.noConfusion hu)
  exact ⟨h.1, h.2.1, h.2.2.1⟩

/-! ### C10 — duplicate fingerprints within one fetched batch -/

/-- C10: an entry's newness is decided only against the stored fingerprint
history, never against the other entries of the same batch: when the
fetched batch is `[e1, e2]` and both entries carry the same fingerprint
`h`, absent from the stored history, both are marked new, `h` is appended
to the new-fingerprint list twice, and one notification fanout is
dispatched for each of the two entries. -/
theorem duplicate_in_batch (w : World) (feed : Feed) (now : Nat)
    (d : FetchResult) (rss : RssD) (e1 e2 : Entry) (ga gb h : String)
    (hsk : dueSkip feed now = false) (hst : d.status ≠ 304)
    (hrss : d.rss_d = some rss) (hent : rss.entries = [e1, e2])
    (hg1 : entryGuid e1 = some ga) (hh1 : w.get_hash ga = h)
    (hg2 : entryGuid e2 = some gb) (hh2 : w.get_hash gb = h)
    (hmem : h ∉ feed.entry_hashes.getD [])
    (hurl : d.url = feed.link)
    (hrender : ∀ e, w.render e = Except.ok ())
    (hsend : ∀ u m, w.send u ≠ SendOutcome.unexpectedFailure m) :
    dedupDiff w.get_hash rss.entries (feed.entry_hashes.getD [])
      = ([h, h], [e1, e2]) ∧
    (monitor w feed now d).outcome = some UPDATED ∧
    (monitor w feed now d).eff.notifies = [e1, e2] := by
  have hdd0 : dedupDiff w.get_hash [e1, e2] (feed.entry_hashes.getD [])
      = ([h, h], [e1, e2]) := by
    simp [dedupDiff, hg1, hg2, hh1, hh2, hmem]
  refine ⟨by rw [hent]; exact hdd0, ?_⟩
  simp only [monitor, hsk, Bool.false_eq_true, if_false, monitorBody,
    if_neg hst, hrss]
  try dsimp only
  rw [hent, ite_clearFeed_entry_hashes]
  rw [if_neg (by simp : ¬([e1, e2] : List Entry) = [])]
  rw [hdd0]
  try dsimp only
  rw [if_neg (by simp : ¬([h, h] : List String) = [])]
  rw [ite_clearFeed_link]
  have hnomig : ¬ (d.url ≠ feed.link) := fun hx => hx hurl
  rw [if_neg hnomig]
  try dsimp only
  have hgn : ∀ (f : Feed), (gatherNotify w f [e1, e2]).2 = none :=
    fun f => gatherNotify_err_none w f [e1, e2] (fun e _ => hrender e) hsend
  have hgn2 : ∀ (f : Feed), (gatherNotify w f [e1, e2]).1.notifies
      = [e1, e2] := fun f => gatherNotify_notifies w f [e1, e2]
  rw [hgn]
  refine ⟨by simp, ?_⟩
  simp only [Effects.append_notifies, hgn2, ite_recEff_notifies]
  simp [Effects.empty]

/-- Witness for C10: the two duplicate-guid entries of `dDup` on the feed
with stored history `["h1", "h2"]`. -/
theorem duplicate_in_batch_witness :
    dedupDiff wBenign.get_hash [dupEntry1, dupEntry2] ["h1", "h2"]
      = (["g", "g"], [dupEntry1, dupEntry2]) ∧
    (monitor wBenign feedL 1000 dDup).outcome = some UPDATED ∧
    (monitor wBenign feedL 1000 dDup).eff.notifies
      = [dupEntry1, dupEntry2] := by
  have h := duplicate_in_batch wBenign feedL 1000 dDup
    { entries := [dupEntry1, dupEntry2] } dupEntry1 dupEntry2 "g" "g" "g"
    rfl (by decide) rfl rfl rfl rfl rfl rfl (by decide) rfl
    (fun e => rfl) (fun u m hu => SendOutcome.noConfusion hu)
  exact ⟨by rw [show RssD.entries { entries := [dupEntry1, dupEntry2] }
      = [dupEntry1, dupEntry2] from rfl] at h; exact h.1, h.2.1, h.2.2⟩

/-! ### C8 — bounded fingerprint history -/

theorem dedupDiff_length_le (gh : String → String) (es : List Entry)
    (old : List String) :
    (dedupDiff gh es old).1.length ≤ es.length := by
  induction es with
  | nil => simp [dedupDiff]
  | cons e es ih =>
    simp only [dedupDiff]
    cases hg : entryGuid e with
    | none =>
      simp only [List.length_cons]
      omega
    | some g =>
      dsimp only
      split
      · simp only [List.length_cons]
        omega
      · simp only [List.length_cons]
        omega

theorem mergeHashes_length_le (u old : List String) (n : Nat)
    (h : u.length ≤ n) :
    (mergeHashes u old n).length ≤ max (2 * n) 100 := by
  simp only [mergeHashes, List.length_append, List.length_take]
  omega

/-- C8: on every update path — any stored history, any fetched batch with
at least one new fingerprint — the merged history written by the final
`feed.save()` is the new fingerprints (in source order) followed by the
surviving leading old fingerprints (the oldest, i.e. trailing, ones
evicted), and its length is at most max(2 * batch size, 100). -/
theorem bounded_history (w : World) (feed : Feed) (now : Nat)
    (d : FetchResult) (rss : RssD)
    (hsk : dueSkip feed now = false) (hst : d.status ≠ 304)
    (hrss : d.rss_d = some rss) (hemp : rss.entries ≠ [])
    (hdd : (dedupDiff w.get_hash rss.entries
      (feed.entry_hashes.getD [])).1 ≠ []) :
    ∃ fs, (monitor w feed now d).eff.saves.getLast? = some fs ∧
      fs.entry_hashes = some (mergeHashes
        (dedupDiff w.get_hash rss.entries (feed.entry_hashes.getD [])).1
        (feed.entry_hashes.getD []) rss.entries.length) ∧
      (mergeHashes
        (dedupDiff w.get_hash rss.entries (feed.entry_hashes.getD [])).1
        (feed.entry_hashes.getD []) rss.entries.length).length ≤
        max (2 * rss.entries.length) 100 := by
  have hlen := mergeHashes_length_le
    (dedupDiff w.get_hash rss.entries (feed.entry_hashes.getD [])).1
    (feed.entry_hashes.getD []) rss.entries.length
    (dedupDiff_length_le w.get_hash rss.entries (feed.entry_hashes.getD []))
  simp only [monitor, hsk, Bool.false_eq_true, if_false, monitorBody,
    if_neg hst, hrss]
  try dsimp only
  rw [if_neg hemp]
  simp only [ite_clearFeed_entry_hashes]
  rw [if_neg hdd]
  try dsimp only
  refine ⟨{ (if recoveryCond feed d then clearFeed feed else feed) with
      entry_hashes := some (mergeHashes
        (dedupDiff w.get_hash rss.entries (feed.entry_hashes.getD [])).1
        (feed.entry_hashes.getD []) rss.entries.length)
      etag := d.respEtag
      last_modified := d.respLastModified }, ?_, rfl, hlen⟩
  simp only [Effects.append_saves, gatherNotify_saves, List.append_nil,
    ite_recEff_saves]
  split <;> (try split) <;> (try split) <;> rfl

/-- Witness for C8: the concrete update of `feedL` by one new entry. -/
theorem bounded_history_witness :
    ∃ fs, (monitor wBenign feedL 1000
        (dSuccess ["h3"])).eff.saves.getLast? = some fs ∧
      fs.entry_hashes = some (mergeHashes
        (dedupDiff wBenign.get_hash
          (RssD.entries { entries := [entryOf "h3"] })
          (feedL.entry_hashes.getD [])).1
        (feedL.entry_hashes.getD [])
        (RssD.entries { entries := [entryOf "h3"] }).length) ∧
      (mergeHashes
        (dedupDiff wBenign.get_hash
          (RssD.entries { entries := [entryOf "h3"] })
          (feedL.entry_hashes.getD [])).1
        (feedL.entry_hashes.getD [])
        (RssD.entries { entries := [entryOf "h3"] }).length).length ≤
        max (2 * (RssD.entries { entries := [entryOf "h3"] }).length) 100 :=
  bounded_history wBenign feedL 1000 (dSuccess ["h3"])
    { entries := [entryOf "h3"] } rfl (by decide) rfl (by decide)
    (by decide)

/-! ### C3 — unclassified failures are NOT contained by `__monitor` -/

/-- C3 (evaluating the code at the failing input): `__monitor` has no
catch-all, so an unclassified error — here raised while rendering the post
of a new entry — escapes the poll instead of being folded into a `failed`
outcome, and the cycle-level `asyncio.gather` of `run_monitor_task`
(line 78, without `return_exceptions`) aborts, losing the outcome of the
healthy sibling poll. -/
theorem unclassified_failure_escapes :
    (monitor wRaise feedL 1000 (dSuccess ["h3"])).outcome = none ∧
    (monitor wRaise feedL 1000 (dSuccess ["h3"])).err = some "boom" ∧
    (monitor wRaise feedL 1000 (dSuccess ["h3"])).outcome ≠ some FAILED ∧
    run_monitor_task wRaise 1000
        [(feedL, dSuccess ["h3"]), (feedL, dCache)]
      = Except.error "boom" ∧
    run_monitor_task wRaise 1000 [(feedL, dCache)]
      = Except.ok [CACHED] := by
  exact ⟨by decide, by decide, by decide, rfl, rfl⟩

/-! ### C6 — one unsubscribe-all per recipient under concurrency -/

theorem SendProtocol.step_check_locked {n : Nat} (user : Fin n → Int)
    (u : Int) (s : SendProtocol.CState n) (i : Fin n)
    (h : s.lockHeld u = true) :
    (SendProtocol.step user s (SendProtocol.Act.check i)).lockHeld u
        = true ∧
    (SendProtocol.step user s (SendProtocol.Act.check i)).unsubs u
        = s.unsubs u := by
  cases hp : s.phase i with
  | pending =>
    by_cases hl : s.lockHeld (user i) = true
    · simp [SendProtocol.step, hp, hl, h]
    · have hne : u ≠ user i := fun he => hl (he ▸ h)
      simp [SendProtocol.step, hp, hl, hne, h]
  | holding => simp [SendProtocol.step, hp, h]
  | returned => simp [SendProtocol.step, hp, h]
  | finished => simp [SendProtocol.step, hp, h]

theorem SendProtocol.run_checks_locked {n : Nat} (user : Fin n → Int)
    (u : Int) (σ : List (SendProtocol.Act n))
    (hσ : ∀ a ∈ σ, a.isCheck = true) :
    ∀ s : SendProtocol.CState n, s.lockHeld u = true →
      (SendProtocol.run user s σ).lockHeld u = true ∧
      (SendProtocol.run user s σ).unsubs u = s.unsubs u := by
  induction σ with
  | nil => exact fun s h => ⟨h, rfl⟩
  | cons a σ ih =>
    intro s h
    have htail := fun x hx => hσ x (List.mem_cons_of_mem a hx)
    cases a with
    | check i =>
      have hs := SendProtocol.step_check_locked user u s i h
      have hrest := htail
      have hr := ih htail
        (SendProtocol.step user s (SendProtocol.Act.check i)) hs.1
      refine ⟨hr.1, ?_⟩
      rw [SendProtocol.run, List.foldl_cons, ← SendProtocol.run]
      rw [hr.2, hs.2]
    | finish i =>
      exact absurd (hσ _ (List.mem_cons_self _ σ))
        (by simp [SendProtocol.Act.isCheck])

theorem SendProtocol.step_no_ucheck {n : Nat} (user : Fin n → Int)
    (u : Int) (s : SendProtocol.CState n) (a : SendProtocol.Act n)
    (ha : SendProtocol.Act.isCheckOf user u a = false) :
    (SendProtocol.step user s a).unsubs u = s.unsubs u := by
  cases a with
  | check i =>
    have hne : u ≠ user i := by
      simp only [SendProtocol.Act.isCheckOf, beq_eq_false_iff_ne] at ha
      exact fun he => ha he.symm
    cases hp : s.phase i with
    | pending =>
      by_cases hl : s.lockHeld (user i) = true
      · simp [SendProtocol.step, hp, hl]
      · simp [SendProtocol.step, hp, hl, hne]
    | holding => simp [SendProtocol.step, hp]
    | returned => simp [SendProtocol.step, hp]
    | finished => simp [SendProtocol.step, hp]
  | finish i =>
    cases hp : s.phase i <;> simp [SendProtocol.step, hp]

theorem SendProtocol.run_no_ucheck {n : Nat} (user : Fin n → Int)
    (u : Int) (σ : List (SendProtocol.Act n))
    (hσ : ∀ a ∈ σ, SendProtocol.Act.isCheckOf user u a = false) :
    ∀ s : SendProtocol.CState n,
      (SendProtocol.run user s σ).unsubs u = s.unsubs u := by
  induction σ with
  | nil => exact fun s => rfl
  | cons a σ ih =>
    intro s
    rw [SendProtocol.run, List.foldl_cons, ← SendProtocol.run]
    rw [ih (fun x hx => hσ x (List.mem_cons_of_mem a hx))]
    exact SendProtocol.step_no_ucheck user u s a
      (hσ a (List.mem_cons_self a σ))

theorem SendProtocol.step_other_user {n : Nat} (user : Fin n → Int)
    (u : Int) (s : SendProtocol.CState n) (i : Fin n)
    (hui : ¬ user i = u) :
    (SendProtocol.step user s (SendProtocol.Act.check i)).lockHeld u
        = s.lockHeld u ∧
    (SendProtocol.step user s (SendProtocol.Act.check i)).unsubs u
        = s.unsubs u ∧
    (∀ j, user j = u →
      (SendProtocol.step user s (SendProtocol.Act.check i)).phase j
        = s.phase j) := by
  have hne : u ≠ user i := fun he => hui he.symm
  have hji : ∀ j, user j = u → ¬ j = i :=
    fun j hj hjeq => hui (hjeq ▸ hj)
  cases hp : s.phase i with
  | pending =>
    by_cases hl : s.lockHeld (user i) = true
    · refine ⟨by simp [SendProtocol.step, hp, hl], ?_, ?_⟩
      · simp [SendProtocol.step, hp, hl]
      · intro j hj
        simp [SendProtocol.step, hp, hl, hji j hj]
    · refine ⟨?_, ?_, ?_⟩
      · simp [SendProtocol.step, hp, hl, hne]
      · simp [SendProtocol.step, hp, hl, hne]
      · intro j hj
        simp [SendProtocol.step, hp, hl, hji j hj]
  | holding => simp [SendProtocol.step, hp]
  | returned => simp [SendProtocol.step, hp]
  | finished => simp [SendProtocol.step, hp]

theorem SendProtocol.run_checks_single {n : Nat} (user : Fin n → Int)
    (u : Int) (σ : List (SendProtocol.Act n))
    (hσ : ∀ a ∈ σ, a.isCheck = true)
    (hex : ∃ i, user i = u ∧ SendProtocol.Act.check i ∈ σ) :
    ∀ s : SendProtocol.CState n, s.lockHeld u = false →
      (∀ i, user i = u → s.phase i = SendProtocol.Phase.pending) →
      (SendProtocol.run user s σ).unsubs u = s.unsubs u + 1 := by
  induction σ with
  | nil =>
    obtain ⟨i, _, hmem⟩ := hex
    exact absurd hmem (List.not_mem_nil _)
  | cons a σ ih =>
    intro s hlock hpend
    have htail := fun x hx => hσ x (List.mem_cons_of_mem a hx)
    cases a with
    | check i =>
      rw [SendProtocol.run, List.foldl_cons, ← SendProtocol.run]
      by_cases hui : user i = u
      · have hp : s.phase i = SendProtocol.Phase.pending := hpend i hui
        have hl : ¬ s.lockHeld (user i) = true := by
          rw [hui, hlock]
          exact Bool.false_ne_true
        have hstep1 : (SendProtocol.step user s
            (SendProtocol.Act.check i)).lockHeld u = true := by
          simp [SendProtocol.step, hp, hl, hui.symm]
        have hstep2 : (SendProtocol.step user s
            (SendProtocol.Act.check i)).unsubs u = s.unsubs u + 1 := by
          simp [SendProtocol.step, hp, hl, hui.symm]
        have hrest := SendProtocol.run_checks_locked user u σ htail
          (SendProtocol.step user s (SendProtocol.Act.check i)) hstep1
        rw [hrest.2, hstep2]
      · have hstep := SendProtocol.step_other_user user u s i hui
        have hex2 : ∃ j, user j = u ∧ SendProtocol.Act.check j ∈ σ := by
          obtain ⟨j, hj, hmem⟩ := hex
          rcases List.mem_cons.mp hmem with he | hm
          · refine absurd hj ?_
            have hje : j = i := by injection he
            rw [hje]
            exact hui
          · exact ⟨j, hj, hm⟩
        have hrec := ih htail hex2
          (SendProtocol.step user s (SendProtocol.Act.check i))
          (by rw [hstep.1]; exact hlock)
          (fun j hj => by rw [hstep.2.2 j hj]; exact hpend j hj)
        rw [hrec, hstep.2.1]
    | finish i =>
      exact absurd (hσ _ (List.mem_cons_self _ σ))
        (by simp [SendProtocol.Act.isCheck])

/-- C6: for every recipient `u`, when N concurrent permanent-delivery
failures for `u` (across any feeds — the lock bucket is keyed by the
recipient only) all run their atomic check segment while the handling of
the first one is still in flight (all checks in the schedule precede any
completion), exactly one `unsub_all(u)` is executed: the first handler
acquires the lazily-created, initially-unlocked per-recipient lock, and
every later handler finds it held and returns immediately without
duplicating the work; completions and other recipients' handlers never add
executions. -/
theorem single_unsubscribe {n : Nat} (user : Fin n → Int) (u : Int)
    (σ₁ σ₂ : List (SendProtocol.Act n))
    (hall : ∀ a ∈ σ₁, a.isCheck = true)
    (hex : ∃ i, user i = u ∧ SendProtocol.Act.check i ∈ σ₁)
    (hlater : ∀ a ∈ σ₂, SendProtocol.Act.isCheckOf user u a = false) :
    (SendProtocol.run user (SendProtocol.initState n)
      (σ₁ ++ σ₂)).unsubs u = 1 := by
  have happ : SendProtocol.run user (SendProtocol.initState n) (σ₁ ++ σ₂)
      = SendProtocol.run user
          (SendProtocol.run user (SendProtocol.initState n) σ₁) σ₂ := by
    simp [SendProtocol.run, List.foldl_append]
  rw [happ, SendProtocol.run_no_ucheck user u σ₂ hlater]
  exact SendProtocol.run_checks_single user u σ₁ hall hex
    (SendProtocol.initState n) rfl (fun i _ => rfl)

/-- Witness for C6: three concurrent failure handlers for recipient 7, all
checking before any completes; exactly one unsubscribe executes. -/
theorem single_unsubscribe_witness :
    (SendProtocol.run (fun _ => (7 : Int)) (SendProtocol.initState 3)
      ([SendProtocol.Act.check 0, SendProtocol.Act.check 1,
        SendProtocol.Act.check 2] ++
       [SendProtocol.Act.finish 0, SendProtocol.Act.finish 1,
        SendProtocol.Act.finish 2])).unsubs 7 = 1 :=
  single_unsubscribe (fun _ => 7) 7 _ _ (by decide)
    ⟨0, rfl, by decide⟩ (by decide)

end RSSTT
